import Mathlib

/-!
Verification of the flow-activator command-line tool.

The tool (src/activateFlows.js) activates the latest version of named
Salesforce flows across selected orgs.  We embed its observable behaviour
shallowly: remote calls become fields of an explicit environment record,
each holding either a transport error message or the parsed response, and
the functions of the script become Lean functions that also return the
trace of remote requests they issue.
-/

/-- The single-quote character used by the script to delimit SOQL string
literals (built by name to keep source strings quote-free). -/
def squote : String := String.singleton (Char.ofNat 39)

/-- A record returned by the step-1 flow-version query:
`SELECT Id, VersionNumber FROM Flow ...`. -/
structure FlowVersionRecord where
  Id : String
  VersionNumber : Nat
deriving DecidableEq

/-- A record returned by the step-2 definition query:
`SELECT Id FROM FlowDefinition ...`. -/
structure FlowDefinitionRecord where
  Id : String
deriving DecidableEq

/-- A record returned by the step-4 verification query:
`SELECT ActiveVersionId FROM FlowDefinition ...`.  The field is optional
because the remote API may return a null active-version pointer. -/
structure VerificationRecord where
  ActiveVersionId : Option String
deriving DecidableEq

/-- The inner `{activeVersionNumber: n}` object of the patch body. -/
structure FlowMetadata where
  activeVersionNumber : Nat
deriving DecidableEq

/-- The patch body `{Metadata: {activeVersionNumber: n}}` sent in step 3. -/
structure PatchBody where
  Metadata : FlowMetadata
deriving DecidableEq

/-- A remote request issued by `activateLatestFlow`: either a GET against
the tooling query endpoint with a SOQL string, or a PATCH against the
FlowDefinition sobject endpoint for a given definition id. -/
inductive Request where
  | getQuery (q : String)
  | patchDefinition (flowDefinitionId : String) (body : PatchBody)
deriving DecidableEq

/-- The observable outcome of one flow activation, as reported by the
script's console line for that flow. -/
inductive Outcome where
  | FlowNotFound
  | DefinitionNotFound
  | Activated (versionNumber : Nat)
  | VerificationFailed (versionNumber : Nat)
  | RemoteError (message : String)
deriving DecidableEq

/-- The remote world seen by one call to `activateLatestFlow`: the result
of each of the four remote calls, in the order the script makes them.
`Except.error msg` models a transport-level failure (network error,
non-success HTTP status, or a malformed response) raised by the HTTP
client for that call. -/
structure Remote where
  queryFlow : Except String (List FlowVersionRecord)
  queryDefinition : Except String (List FlowDefinitionRecord)
  patchResult : Except String Unit
  queryVerification : Except String (List VerificationRecord)

/-- The SOQL string of the step-1 latest-version query. -/
def toolingQuery (flowApiName : String) : String :=
  "SELECT Id, VersionNumber FROM Flow WHERE Definition.DeveloperName = "
    ++ squote ++ flowApiName ++ squote ++ " ORDER BY VersionNumber DESC LIMIT 1"

/-- The SOQL string of the step-2 definition query. -/
def definitionQuery (flowApiName : String) : String :=
  "SELECT Id FROM FlowDefinition WHERE DeveloperName = " ++ squote ++ flowApiName ++ squote

/-- The SOQL string of the step-4 verification query. -/
def verificationQuery (flowDefinitionId : String) : String :=
  "SELECT ActiveVersionId FROM FlowDefinition WHERE Id = " ++ squote ++ flowDefinitionId ++ squote

/-- Embedding of `activateLatestFlow` from src/activateFlows.js.  Returns
the outcome together with the list of remote requests actually issued, in
order.  The surrounding try/catch of the script turns the first failing
call into a `RemoteError` outcome; `response.data.records || []` together
with destructuring `[x] = records` becomes a match on the record list. -/
def activateLatestFlow (flowApiName : String) (env : Remote) : Outcome × List Request :=
  let q1 := Request.getQuery (toolingQuery flowApiName)
  match env.queryFlow with
  | .error msg => (.RemoteError msg, [q1])
  | .ok records =>
    match records with
    | [] => (.FlowNotFound, [q1])
    | latestFlow :: _ =>
      let q2 := Request.getQuery (definitionQuery flowApiName)
      match env.queryDefinition with
      | .error msg => (.RemoteError msg, [q1, q2])
      | .ok defs =>
        match defs with
        | [] => (.DefinitionNotFound, [q1, q2])
        | flowDefinition :: _ =>
          let pr := Request.patchDefinition flowDefinition.Id ⟨⟨latestFlow.VersionNumber⟩⟩
          match env.patchResult with
          | .error msg => (.RemoteError msg, [q1, q2, pr])
          | .ok _ =>
            let q3 := Request.getQuery (verificationQuery flowDefinition.Id)
            match env.queryVerification with
            | .error msg => (.RemoteError msg, [q1, q2, pr, q3])
            | .ok vrecords =>
              match vrecords with
              | [] => (.VerificationFailed latestFlow.VersionNumber, [q1, q2, pr, q3])
              | v :: _ =>
                if v.ActiveVersionId = some latestFlow.Id then
                  (.Activated latestFlow.VersionNumber, [q1, q2, pr, q3])
                else
                  (.VerificationFailed latestFlow.VersionNumber, [q1, q2, pr, q3])

/-- C1: when both lookups return a record and the patch call succeeds, the
outcome is `Activated(versionNumber)` exactly when the first verification
record's `ActiveVersionId` equals the step-1 version id, and
`VerificationFailed(versionNumber)` in every other case, including an
empty verification result; `versionNumber` is the step-1 number. -/
theorem claim_C1 (flowApiName : String) (env : Remote)
    (v : FlowVersionRecord) (vs : List FlowVersionRecord)
    (d : FlowDefinitionRecord) (ds : List FlowDefinitionRecord)
    (vers : List VerificationRecord)
    (h1 : env.queryFlow = .ok (v :: vs))
    (h2 : env.queryDefinition = .ok (d :: ds))
    (h3 : env.patchResult = .ok ())
    (h4 : env.queryVerification = .ok vers) :
    ((∃ w rest, vers = w :: rest ∧ w.ActiveVersionId = some v.Id) →
      (activateLatestFlow flowApiName env).1 = Outcome.Activated v.VersionNumber) ∧
    ((∀ w rest, vers = w :: rest → w.ActiveVersionId ≠ some v.Id) →
      (activateLatestFlow flowApiName env).1 = Outcome.VerificationFailed v.VersionNumber) := by
  constructor
  · rintro ⟨w, rest, hvers, hw⟩
    subst hvers
    simp [activateLatestFlow, h1, h2, h3, h4, hw]
  · intro hmis
    cases vers with
    | nil => simp [activateLatestFlow, h1, h2, h3, h4]
    | cons w rest =>
      have hw := hmis w rest rfl
      simp [activateLatestFlow, h1, h2, h3, h4, hw]

/-- Concrete environment where verification matches. -/
def envVerifyOk : Remote :=
  ⟨.ok [⟨"301A", 7⟩], .ok [⟨"300D"⟩], .ok (), .ok [⟨some ("301A")⟩]⟩

/-- Concrete environment where verification mismatches. -/
def envVerifyBad : Remote :=
  ⟨.ok [⟨"301A", 7⟩], .ok [⟨"300D"⟩], .ok (), .ok [⟨some ("301B")⟩]⟩

theorem claim_C1_witness :
    (activateLatestFlow ("MyFlow") envVerifyOk).1 = Outcome.Activated 7 ∧
    (activateLatestFlow ("MyFlow") envVerifyBad).1 = Outcome.VerificationFailed 7 :=
  ⟨(claim_C1 ("MyFlow") envVerifyOk ⟨"301A", 7⟩ [] ⟨"300D"⟩ [] [⟨some ("301A")⟩]
      rfl rfl rfl rfl).1 ⟨⟨some ("301A")⟩, [], rfl, rfl⟩,
   (claim_C1 ("MyFlow") envVerifyBad ⟨"301A", 7⟩ [] ⟨"300D"⟩ [] [⟨some ("301B")⟩]
      rfl rfl rfl rfl).2 (by intro w rest hw; cases hw; decide)⟩

/-- C2: when the step-1 version lookup returns zero records the outcome is
`FlowNotFound`, the activation stops after that single query, and no patch
request is ever issued. -/
theorem claim_C2 (flowApiName : String) (env : Remote)
    (h1 : env.queryFlow = .ok []) :
    activateLatestFlow flowApiName env =
      (Outcome.FlowNotFound, [Request.getQuery (toolingQuery flowApiName)]) ∧
    ∀ defId body, Request.patchDefinition defId body ∉ (activateLatestFlow flowApiName env).2 := by
  have heq : activateLatestFlow flowApiName env =
      (Outcome.FlowNotFound, [Request.getQuery (toolingQuery flowApiName)]) := by
    simp [activateLatestFlow, h1]
  refine ⟨heq, ?_⟩
  intro defId body hmem
  rw [heq] at hmem
  simp at hmem

/-- Concrete environment where the version lookup returns no records. -/
def envNoVersion : Remote := ⟨.ok [], .ok [], .ok (), .ok []⟩

theorem claim_C2_witness :
    activateLatestFlow ("MissingFlow") envNoVersion =
      (Outcome.FlowNotFound, [Request.getQuery (toolingQuery ("MissingFlow"))]) ∧
    ∀ defId body,
      Request.patchDefinition defId body ∉ (activateLatestFlow ("MissingFlow") envNoVersion).2 :=
  claim_C2 ("MissingFlow") envNoVersion rfl

/-- C3: when the step-1 lookup returns a record but the step-2 definition
query returns zero records, the outcome is `DefinitionNotFound`, the
activation stops after the two queries, and no patch request is issued. -/
theorem claim_C3 (flowApiName : String) (env : Remote)
    (v : FlowVersionRecord) (vs : List FlowVersionRecord)
    (h1 : env.queryFlow = .ok (v :: vs))
    (h2 : env.queryDefinition = .ok []) :
    activateLatestFlow flowApiName env =
      (Outcome.DefinitionNotFound,
        [Request.getQuery (toolingQuery flowApiName),
         Request.getQuery (definitionQuery flowApiName)]) ∧
    ∀ defId body, Request.patchDefinition defId body ∉ (activateLatestFlow flowApiName env).2 := by
  have heq : activateLatestFlow flowApiName env =
      (Outcome.DefinitionNotFound,
        [Request.getQuery (toolingQuery flowApiName),
         Request.getQuery (definitionQuery flowApiName)]) := by
    simp [activateLatestFlow, h1, h2]
  refine ⟨heq, ?_⟩
  intro defId body hmem
  rw [heq] at hmem
  simp at hmem

/-- Concrete environment with a version record but no definition record. -/
def envNoDefinition : Remote := ⟨.ok [⟨"301A", 3⟩], .ok [], .ok (), .ok []⟩

theorem claim_C3_witness :
    activateLatestFlow ("Orphan") envNoDefinition =
      (Outcome.DefinitionNotFound,
        [Request.getQuery (toolingQuery ("Orphan")),
         Request.getQuery (definitionQuery ("Orphan"))]) ∧
    ∀ defId body,
      Request.patchDefinition defId body ∉ (activateLatestFlow ("Orphan") envNoDefinition).2 :=
  claim_C3 ("Orphan") envNoDefinition ⟨"301A", 3⟩ [] rfl rfl

/-- An entry of `result.nonScratchOrgs` from the external org-listing
command, restricted to the two fields the script reads. -/
structure OrgRecord where
  orgAlias : String
  connectedStatus : String
deriving DecidableEq

/-- The filter applied by `getAuthenticatedOrgs` to the parsed listing:
keep exactly the entries whose `connectedStatus` is "Connected", in the
listing order. -/
def listConnectedOrgs (nonScratchOrgs : List OrgRecord) : List OrgRecord :=
  nonScratchOrgs.filter (fun org => org.connectedStatus == "Connected")

/-- A prompt choice `{title, value}` as built for the org multi-select. -/
structure Choice where
  title : String
  value : String
deriving DecidableEq

/-- The selectable choices built in `main`: one per connected org, title
and value both the org alias. -/
def orgChoices (orgs : List OrgRecord) : List Choice :=
  orgs.map (fun org => ⟨org.orgAlias, org.orgAlias⟩)

/-- The `{accessToken, instanceUrl}` pair returned by `getSfInstance`. -/
structure Credential where
  accessToken : String
  instanceUrl : String
deriving DecidableEq

/-- The external world of one run: the org-listing command's outcome, the
per-alias credential command's outcome, and the remote responses each
org×flow activation will see.  `Except.error` on the first two models a
failing external command, which the script answers with process.exit(1). -/
structure Env where
  orgListing : Except String (List OrgRecord)
  credential : String → Except String Credential
  remote : String → String → Remote

/-- One observable console event of the run loop: a successful credential
resolution for an org, or the status line of one flow activation. -/
inductive Event where
  | resolveCredential (orgAlias : String)
  | activation (orgAlias : String) (flowApiName : String) (outcome : Outcome)
deriving DecidableEq

/-- The events one org contributes when its credential resolves: the
resolution itself, then one activation per flow name in entered order. -/
def orgTrace (env : Env) (flowNames : List String) (orgAlias : String) : List Event :=
  Event.resolveCredential orgAlias ::
    flowNames.map (fun f =>
      Event.activation orgAlias f (activateLatestFlow f (env.remote orgAlias f)).1)

/-- Embedding of the nested loop at the end of `main`: for each selected
org in order, resolve its credential (exit code 1 aborts the whole run if
that fails), then activate every flow in order.  Returns the event trace
and the process exit code. -/
def runActivationLoop (env : Env) (flowNames : List String) : List String → List Event × Nat
  | [] => ([], 0)
  | orgAlias :: rest =>
    match env.credential orgAlias with
    | .error _ => ([], 1)
    | .ok _ =>
      let r := runActivationLoop env flowNames rest
      (orgTrace env flowNames orgAlias ++ r.1, r.2)

/-- True exactly on activation events. -/
def isActivation : Event → Bool
  | .activation _ _ _ => true
  | _ => false

/-- True exactly on credential-resolution events. -/
def isResolve : Event → Bool
  | .resolveCredential _ => true
  | _ => false

/-- Helper: when every selected org's credential resolves, the loop is the
concatenation of the per-org traces, with exit code 0. -/
theorem runActivationLoop_ok (env : Env) (flowNames : List String) :
    ∀ orgs : List String, (∀ o ∈ orgs, ∃ c, env.credential o = Except.ok c) →
      runActivationLoop env flowNames orgs = (orgs.flatMap (orgTrace env flowNames), 0) := by
  intro orgs
  induction orgs with
  | nil => intro _; rfl
  | cons o rest ih =>
    intro h
    obtain ⟨c, hc⟩ := h o (List.mem_cons_self o rest)
    have hrest := ih (fun x hx => h x (List.mem_cons_of_mem o hx))
    simp [runActivationLoop, hc, hrest]

/-- Helper: activation-event count of one org's trace. -/
theorem countActivation_orgTrace (env : Env) (flowNames : List String) (o : String) :
    (orgTrace env flowNames o).countP isActivation = flowNames.length := by
  simp only [orgTrace, List.countP_cons, isActivation, List.countP_map]
  have : (isActivation ∘ fun f =>
      Event.activation o f (activateLatestFlow f (env.remote o f)).1) = fun _ => true := by
    funext f
    rfl
  simp [this, List.countP_true]

/-- Helper: activation-event count of the whole trace. -/
theorem countActivation_flatMap (env : Env) (flowNames : List String) :
    ∀ orgs : List String,
      ((orgs.flatMap (orgTrace env flowNames)).countP isActivation) =
        orgs.length * flowNames.length := by
  intro orgs
  induction orgs with
  | nil => simp
  | cons o rest ih =>
    simp [List.flatMap_cons, List.countP_append, ih, countActivation_orgTrace,
      Nat.succ_mul, Nat.add_comm]

/-- Helper: resolve-event count of one org's trace is exactly one. -/
theorem countResolve_orgTrace (env : Env) (flowNames : List String) (o : String) :
    (orgTrace env flowNames o).countP isResolve = 1 := by
  simp only [orgTrace, List.countP_cons, List.countP_map]
  have : (isResolve ∘ fun f =>
      Event.activation o f (activateLatestFlow f (env.remote o f)).1) = fun _ => false := by
    funext f
    rfl
  simp [this, isResolve]

/-- Helper: resolve-event count of the whole trace. -/
theorem countResolve_flatMap (env : Env) (flowNames : List String) :
    ∀ orgs : List String,
      ((orgs.flatMap (orgTrace env flowNames)).countP isResolve) = orgs.length := by
  intro orgs
  induction orgs with
  | nil => simp
  | cons o rest ih =>
    simp [List.flatMap_cons, List.countP_append, ih, countResolve_orgTrace, Nat.add_comm]

/-- C4: a transport failure at any of the four remote steps makes that
flow's outcome `RemoteError` with the failing call's message, and the
enclosing loop is unaffected by outcomes: whenever every credential
resolves, the trace still contains the per-org trace of every selected
org (hence every remaining flow and org is processed) and the run exits 0,
whatever the remote responses are. -/
theorem claim_C4 (flowApiName : String) (r : Remote) (m : String) :
    (r.queryFlow = Except.error m →
      (activateLatestFlow flowApiName r).1 = Outcome.RemoteError m) ∧
    (∀ v vs, r.queryFlow = Except.ok (v :: vs) →
      r.queryDefinition = Except.error m →
      (activateLatestFlow flowApiName r).1 = Outcome.RemoteError m) ∧
    (∀ v vs d ds, r.queryFlow = Except.ok (v :: vs) →
      r.queryDefinition = Except.ok (d :: ds) →
      r.patchResult = Except.error m →
      (activateLatestFlow flowApiName r).1 = Outcome.RemoteError m) ∧
    (∀ v vs d ds, r.queryFlow = Except.ok (v :: vs) →
      r.queryDefinition = Except.ok (d :: ds) →
      r.patchResult = Except.ok () →
      r.queryVerification = Except.error m →
      (activateLatestFlow flowApiName r).1 = Outcome.RemoteError m) ∧
    (∀ (env : Env) (flowNames orgs : List String),
      (∀ o ∈ orgs, ∃ c, env.credential o = Except.ok c) →
      runActivationLoop env flowNames orgs = (orgs.flatMap (orgTrace env flowNames), 0)) := by
  refine ⟨?_, ?_, ?_, ?_, ?_⟩
  · intro h1
    simp [activateLatestFlow, h1]
  · intro v vs h1 h2
    simp [activateLatestFlow, h1, h2]
  · intro v vs d ds h1 h2 h3
    simp [activateLatestFlow, h1, h2, h3]
  · intro v vs d ds h1 h2 h3 h4
    simp [activateLatestFlow, h1, h2, h3, h4]
  · intro env flowNames orgs h
    exact runActivationLoop_ok env flowNames orgs h

/-- Concrete environment failing at the first remote call. -/
def remoteDown : Remote := ⟨Except.error ("socket hangup"), .ok [], .ok (), .ok []⟩

/-- Concrete run environment: two orgs, credentials fine, every remote
call failing at step 1. -/
def envTwoOrgsDown : Env :=
  ⟨.ok [], fun _ => Except.ok ⟨("token"), ("url")⟩, fun _ _ => remoteDown⟩

theorem claim_C4_witness :
    (activateLatestFlow ("F") remoteDown).1 = Outcome.RemoteError ("socket hangup") ∧
    runActivationLoop envTwoOrgsDown [("F1"), ("F2")] [("OrgA"), ("OrgB")] =
      ([Event.resolveCredential ("OrgA"),
        Event.activation ("OrgA") ("F1") (Outcome.RemoteError ("socket hangup")),
        Event.activation ("OrgA") ("F2") (Outcome.RemoteError ("socket hangup")),
        Event.resolveCredential ("OrgB"),
        Event.activation ("OrgB") ("F1") (Outcome.RemoteError ("socket hangup")),
        Event.activation ("OrgB") ("F2") (Outcome.RemoteError ("socket hangup"))], 0) :=
  ⟨(claim_C4 ("F") remoteDown ("socket hangup")).1 rfl,
   by
     have h := (claim_C4 ("F") remoteDown ("socket hangup")).2.2.2.2 envTwoOrgsDown
       [("F1"), ("F2")] [("OrgA"), ("OrgB")]
       (fun _ _ => ⟨⟨("token"), ("url")⟩, rfl⟩)
     rw [h]
     rfl⟩

/-- C6: when every selected org's credential resolves, the run visits the
orgs in selection order, emitting for each org one credential resolution
followed by one activation per flow name in entered order; the trace has
exactly `|orgs| * |flows|` activation events and `|orgs|` resolutions, and
the run exits 0. -/
theorem claim_C6 (env : Env) (flowNames : List String) (orgs : List String)
    (h : ∀ o ∈ orgs, ∃ c, env.credential o = Except.ok c) :
    runActivationLoop env flowNames orgs = (orgs.flatMap (orgTrace env flowNames), 0) ∧
    ((runActivationLoop env flowNames orgs).1.countP isActivation) =
      orgs.length * flowNames.length ∧
    ((runActivationLoop env flowNames orgs).1.countP isResolve) = orgs.length := by
  have heq := runActivationLoop_ok env flowNames orgs h
  refine ⟨heq, ?_, ?_⟩
  · rw [heq]
    exact countActivation_flatMap env flowNames orgs
  · rw [heq]
    exact countResolve_flatMap env flowNames orgs

/-- Concrete run environment where every activation succeeds at version 2. -/
def envAllOk : Env :=
  ⟨.ok [], fun _ => Except.ok ⟨("token"), ("url")⟩,
   fun _ _ => ⟨.ok [⟨("301X"), 2⟩], .ok [⟨("300X")⟩], .ok (), .ok [⟨some ("301X")⟩]⟩⟩

theorem claim_C6_witness :
    runActivationLoop envAllOk [("FlowA"), ("FlowB")] [("Org1"), ("Org2")] =
      ([("Org1"), ("Org2")].flatMap (orgTrace envAllOk [("FlowA"), ("FlowB")]), 0) ∧
    ((runActivationLoop envAllOk [("FlowA"), ("FlowB")] [("Org1"), ("Org2")]).1.countP
      isActivation) = 2 * 2 ∧
    ((runActivationLoop envAllOk [("FlowA"), ("FlowB")] [("Org1"), ("Org2")]).1.countP
      isResolve) = 2 :=
  claim_C6 envAllOk [("FlowA"), ("FlowB")] [("Org1"), ("Org2")]
    (fun _ _ => ⟨⟨("token"), ("url")⟩, rfl⟩)

/-- The `validate` function of the flow-name question: JavaScript
truthiness of the raw input string, i.e. any non-empty string passes. -/
def validateFlowInput (value : String) : Bool := value != ""

/-- Character-level embedding of JavaScript `String.prototype.trim`:
drop whitespace from both ends. -/
def trimChars (cs : List Char) : List Char :=
  ((cs.dropWhile Char.isWhitespace).reverse.dropWhile Char.isWhitespace).reverse

/-- `s.trim()` on strings. -/
def trimString (s : String) : String := String.mk (trimChars s.data)

/-- The `format` function of the flow-name question:
`input.split(';').map(name => name.trim())`. -/
def formatFlowNames (input : String) : List String :=
  (input.data.splitOn ';').map (fun field => trimString (String.mk field))

/-- Driver of the flow-name prompt: the prompts library re-asks the
question while `validate` rejects the raw input, then applies `format` to
the accepted input; an exhausted operator (cancellation) yields `none`,
which `main` answers by printing a cancellation message and returning. -/
def promptFlowNames : List String → Option (List String)
  | [] => none
  | input :: rest =>
    if validateFlowInput input then some (formatFlowNames input) else promptFlowNames rest

/-- Embedding of `main` after the banner: prompt for flow names, list the
orgs (a failing listing command is process.exit(1)), build the selectable
choices from the connected orgs, let the operator pick aliases and
confirm, then run the activation loop.  Returns the event trace and the
process exit code. -/
def mainRun (env : Env) (flowInputs : List String)
    (selectOrgs : List Choice → List String) (confirmation : Bool) : List Event × Nat :=
  match promptFlowNames flowInputs with
  | none => ([], 0)
  | some flowNames =>
    match env.orgListing with
    | .error _ => ([], 1)
    | .ok nonScratchOrgs =>
      let selected := selectOrgs (orgChoices (listConnectedOrgs nonScratchOrgs))
      if confirmation then runActivationLoop env flowNames selected
      else ([], 0)

/-- C7: a failing org-listing command exits the process with code 1, and a
failing credential resolution stops the run at that org: the trace is
exactly the trace of the orgs before it (so no flow of the failing org nor
of any later org is processed) and the exit code is 1. -/
theorem claim_C7 (env : Env) (m : String) :
    (∀ (flowInputs : List String) (selectOrgs : List Choice → List String)
        (confirmation : Bool) (flowNames : List String),
      promptFlowNames flowInputs = some flowNames →
      env.orgListing = Except.error m →
      mainRun env flowInputs selectOrgs confirmation = ([], 1)) ∧
    (∀ (flowNames orgs1 : List String) (b : String) (orgs2 : List String),
      (∀ o ∈ orgs1, ∃ c, env.credential o = Except.ok c) →
      env.credential b = Except.error m →
      runActivationLoop env flowNames (orgs1 ++ b :: orgs2) =
        (orgs1.flatMap (orgTrace env flowNames), 1)) := by
  constructor
  · intro flowInputs selectOrgs confirmation flowNames hp hl
    simp [mainRun, hp, hl]
  · intro flowNames orgs1 b orgs2 h1 hb
    induction orgs1 with
    | nil =>
      simp [runActivationLoop, hb]
    | cons o rest ih =>
      obtain ⟨c, hc⟩ := h1 o (List.mem_cons_self o rest)
      have hrest := ih (fun x hx => h1 x (List.mem_cons_of_mem o hx))
      simp [runActivationLoop, hc, hrest]

/-- Environment whose org-listing command fails. -/
def envListingDown : Env :=
  ⟨Except.error ("sfdx not found"), fun _ => Except.ok ⟨("token"), ("url")⟩,
   fun _ _ => remoteDown⟩

/-- Environment where OrgA's credential resolves and OrgB's does not. -/
def envOrgBDown : Env :=
  ⟨.ok [], fun a => if a == "OrgA" then Except.ok ⟨("token"), ("url")⟩
      else Except.error ("expired token"),
   fun _ _ => remoteDown⟩

theorem claim_C7_witness :
    mainRun envListingDown [("FlowA")] (fun _ => []) true = ([], 1) ∧
    runActivationLoop envOrgBDown [("FlowA")] [("OrgA"), ("OrgB")] =
      ([("OrgA")].flatMap (orgTrace envOrgBDown [("FlowA")]), 1) :=
  ⟨(claim_C7 envListingDown ("sfdx not found")).1 [("FlowA")] (fun _ => []) true
      [(trimString ("FlowA"))] rfl rfl,
   (claim_C7 envOrgBDown ("expired token")).2 [("FlowA")] [("OrgA")] ("OrgB") []
      (fun o ho => ⟨⟨("token"), ("url")⟩, by
        have : o = "OrgA" := by simpa using ho
        rw [this]
        rfl⟩) rfl⟩

/-- C8: `listConnectedOrgs` keeps exactly the entries whose status is
"Connected", as a sublist of the original listing (hence in listing
order), and the selectable choices are exactly the alias pairs of those
entries. -/
theorem claim_C8 (nonScratchOrgs : List OrgRecord) :
    (∀ org, org ∈ listConnectedOrgs nonScratchOrgs ↔
      (org ∈ nonScratchOrgs ∧ org.connectedStatus = "Connected")) ∧
    (listConnectedOrgs nonScratchOrgs).Sublist nonScratchOrgs ∧
    (∀ ch, ch ∈ orgChoices (listConnectedOrgs nonScratchOrgs) ↔
      ∃ org, org ∈ nonScratchOrgs ∧ org.connectedStatus = "Connected" ∧
        ch = ⟨org.orgAlias, org.orgAlias⟩) := by
  refine ⟨?_, ?_, ?_⟩
  · intro org
    simp [listConnectedOrgs, List.mem_filter]
  · exact List.filter_sublist nonScratchOrgs
  · intro ch
    simp only [orgChoices, List.mem_map, listConnectedOrgs, List.mem_filter]
    constructor
    · rintro ⟨org, ⟨hmem, hst⟩, rfl⟩
      exact ⟨org, hmem, by simpa using hst, rfl⟩
    · rintro ⟨org, hmem, hst, rfl⟩
      exact ⟨org, ⟨hmem, by simpa using hst⟩, rfl⟩

/-- Helper: once both lookups return a record, the issued requests are the
two queries followed by the patch, optionally followed by the
verification query (absent exactly when the patch call fails). -/
theorem requests_after_lookups (flowApiName : String) (r : Remote)
    (v : FlowVersionRecord) (vs : List FlowVersionRecord)
    (d : FlowDefinitionRecord) (ds : List FlowDefinitionRecord)
    (h1 : r.queryFlow = Except.ok (v :: vs))
    (h2 : r.queryDefinition = Except.ok (d :: ds)) :
    (activateLatestFlow flowApiName r).2 =
      [Request.getQuery (toolingQuery flowApiName),
       Request.getQuery (definitionQuery flowApiName),
       Request.patchDefinition d.Id ⟨⟨v.VersionNumber⟩⟩] ∨
    (activateLatestFlow flowApiName r).2 =
      [Request.getQuery (toolingQuery flowApiName),
       Request.getQuery (definitionQuery flowApiName),
       Request.patchDefinition d.Id ⟨⟨v.VersionNumber⟩⟩,
       Request.getQuery (verificationQuery d.Id)] := by
  cases hp : r.patchResult with
  | error m =>
    left
    simp [activateLatestFlow, h1, h2, hp]
  | ok u =>
    cases u
    right
    cases hv : r.queryVerification with
    | error m => simp [activateLatestFlow, h1, h2, hp, hv]
    | ok vrecords =>
      cases vrecords with
      | nil => simp [activateLatestFlow, h1, h2, hp, hv]
      | cons w rest =>
        by_cases hw : w.ActiveVersionId = some v.Id
        · simp [activateLatestFlow, h1, h2, hp, hv, hw]
        · simp [activateLatestFlow, h1, h2, hp, hv, hw]

/-- C9: the step-1 query string orders by VersionNumber descending with
limit 1, the first issued request is exactly that query, and for every
activation that reaches step 3 a patch request is issued against the
definition record's id with body `{Metadata: {activeVersionNumber: n}}`
where `n` is the step-1 record's version number — and every patch request
issued has exactly that target and body. -/
theorem claim_C9 (flowApiName : String) (r : Remote)
    (v : FlowVersionRecord) (vs : List FlowVersionRecord)
    (d : FlowDefinitionRecord) (ds : List FlowDefinitionRecord)
    (h1 : r.queryFlow = Except.ok (v :: vs))
    (h2 : r.queryDefinition = Except.ok (d :: ds)) :
    (∃ s, toolingQuery flowApiName = s ++ " ORDER BY VersionNumber DESC LIMIT 1") ∧
    (activateLatestFlow flowApiName r).2.head? =
      some (Request.getQuery (toolingQuery flowApiName)) ∧
    Request.patchDefinition d.Id ⟨⟨v.VersionNumber⟩⟩ ∈ (activateLatestFlow flowApiName r).2 ∧
    (∀ defId body, Request.patchDefinition defId body ∈ (activateLatestFlow flowApiName r).2 →
      defId = d.Id ∧ body = ⟨⟨v.VersionNumber⟩⟩) := by
  have hreq := requests_after_lookups flowApiName r v vs d ds h1 h2
  refine ⟨⟨"SELECT Id, VersionNumber FROM Flow WHERE Definition.DeveloperName = "
      ++ squote ++ flowApiName ++ squote, rfl⟩, ?_, ?_, ?_⟩
  · rcases hreq with heq | heq
    · rw [heq]
      rfl
    · rw [heq]
      rfl
  · rcases hreq with heq | heq
    · rw [heq]
      simp
    · rw [heq]
      simp
  · intro defId body hmem
    rcases hreq with heq | heq
    · rw [heq] at hmem
      simp at hmem
      exact ⟨hmem.1, hmem.2⟩
    · rw [heq] at hmem
      simp at hmem
      exact ⟨hmem.1, hmem.2⟩

theorem claim_C9_witness :
    (∃ s, toolingQuery ("MyFlow") = s ++ " ORDER BY VersionNumber DESC LIMIT 1") ∧
    (activateLatestFlow ("MyFlow") envVerifyOk).2.head? =
      some (Request.getQuery (toolingQuery ("MyFlow"))) ∧
    Request.patchDefinition ("300D") ⟨⟨7⟩⟩ ∈ (activateLatestFlow ("MyFlow") envVerifyOk).2 ∧
    (∀ defId body,
      Request.patchDefinition defId body ∈ (activateLatestFlow ("MyFlow") envVerifyOk).2 →
      defId = "300D" ∧ body = ⟨⟨7⟩⟩) :=
  claim_C9 ("MyFlow") envVerifyOk ⟨"301A", 7⟩ [] ⟨"300D"⟩ [] rfl rfl

/-- Number of single-quote characters in a string. -/
def countQuotes (s : String) : Nat := s.data.count (Char.ofNat 39)

/-- Helper: quote counting distributes over append. -/
theorem countQuotes_append (a b : String) :
    countQuotes (a ++ b) = countQuotes a + countQuotes b := by
  simp [countQuotes, String.data_append, List.count_append]

/-- Helper: the quote delimiter contains one quote. -/
theorem countQuotes_squote : countQuotes squote = 1 := rfl

/-- C10 (counterexample to the claim as stated): in a run for flow name
"ZZZ" whose definition lookup returns id "300D", the third (verification)
query string sent is built from the definition id and does not embed the
operator-supplied flow name at all — so it is not true that all three
query strings embed that name. -/
theorem claim_C10_counterexample :
    (activateLatestFlow ("ZZZ") envVerifyOk).2 =
      [Request.getQuery (toolingQuery ("ZZZ")),
       Request.getQuery (definitionQuery ("ZZZ")),
       Request.patchDefinition ("300D") ⟨⟨7⟩⟩,
       Request.getQuery (verificationQuery ("300D"))] ∧
    ¬ (("ZZZ") : String).data <:+: (verificationQuery ("300D")).data := by
  refine ⟨?_, ?_⟩ <;> decide

/-- C10 (amended): the step-1 and step-2 query builders embed the
operator-supplied flow name verbatim between fixed template pieces, and
the step-4 builder embeds its argument — the definition id returned by
step 2, not the flow name — verbatim the same way; none escapes or
sanitizes, the quote count of each query is its embedded value's quote
count plus the template's two delimiters, and in every run reaching the
verification step the issued step-4 query is the one built from the
step-2 definition id.  Hence an embedded value containing a single quote
yields a query whose quote structure differs from the two-quote
template — for the flow name this affects the step-1 and step-2 queries. -/
theorem claim_C10 (name defId : String) :
    (∃ l r, toolingQuery name = l ++ name ++ r) ∧
    (∃ l r, definitionQuery name = l ++ name ++ r) ∧
    (∃ l r, verificationQuery defId = l ++ defId ++ r) ∧
    countQuotes (toolingQuery name) = countQuotes name + 2 ∧
    countQuotes (definitionQuery name) = countQuotes name + 2 ∧
    countQuotes (verificationQuery defId) = countQuotes defId + 2 ∧
    (0 < countQuotes name →
      countQuotes (toolingQuery name) ≠ 2 ∧
      countQuotes (definitionQuery name) ≠ 2) ∧
    (0 < countQuotes defId → countQuotes (verificationQuery defId) ≠ 2) ∧
    (∀ (r : Remote) (v : FlowVersionRecord) (vs : List FlowVersionRecord)
        (d : FlowDefinitionRecord) (ds : List FlowDefinitionRecord),
      r.queryFlow = Except.ok (v :: vs) →
      r.queryDefinition = Except.ok (d :: ds) →
      r.patchResult = Except.ok () →
      Request.getQuery (verificationQuery d.Id) ∈ (activateLatestFlow name r).2) := by
  have htq : countQuotes (toolingQuery name) = countQuotes name + 2 := by
    have h0 : countQuotes
        ("SELECT Id, VersionNumber FROM Flow WHERE Definition.DeveloperName = ") = 0 := rfl
    have h1 : countQuotes (" ORDER BY VersionNumber DESC LIMIT 1") = 0 := rfl
    simp only [toolingQuery, countQuotes_append, countQuotes_squote, h0, h1]
    omega
  have hdq : countQuotes (definitionQuery name) = countQuotes name + 2 := by
    have h0 : countQuotes ("SELECT Id FROM FlowDefinition WHERE DeveloperName = ") = 0 := rfl
    simp only [definitionQuery, countQuotes_append, countQuotes_squote, h0]
    omega
  have hvq : countQuotes (verificationQuery defId) = countQuotes defId + 2 := by
    have h0 : countQuotes ("SELECT ActiveVersionId FROM FlowDefinition WHERE Id = ") = 0 := rfl
    simp only [verificationQuery, countQuotes_append, countQuotes_squote, h0]
    omega
  refine ⟨?_, ?_, ?_, htq, hdq, hvq, ?_, ?_, ?_⟩
  · exact ⟨("SELECT Id, VersionNumber FROM Flow WHERE Definition.DeveloperName = ") ++ squote,
      squote ++ (" ORDER BY VersionNumber DESC LIMIT 1"),
      by rw [toolingQuery, String.append_assoc]⟩
  · exact ⟨("SELECT Id FROM FlowDefinition WHERE DeveloperName = ") ++ squote, squote,
      rfl⟩
  · exact ⟨("SELECT ActiveVersionId FROM FlowDefinition WHERE Id = ") ++ squote, squote,
      rfl⟩
  · intro hpos
    refine ⟨?_, ?_⟩
    · rw [htq]; omega
    · rw [hdq]; omega
  · intro hpos
    rw [hvq]; omega
  · intro r v vs d ds h1 h2 h3
    cases hv : r.queryVerification with
    | error m => simp [activateLatestFlow, h1, h2, h3, hv]
    | ok vrecords =>
      cases vrecords with
      | nil => simp [activateLatestFlow, h1, h2, h3, hv]
      | cons w rest =>
        by_cases hw : w.ActiveVersionId = some v.Id
        · simp [activateLatestFlow, h1, h2, h3, hv, hw]
        · simp [activateLatestFlow, h1, h2, h3, hv, hw]

theorem claim_C10_witness :
    0 < countQuotes (("O") ++ squote ++ ("Brien")) ∧
    countQuotes (toolingQuery (("O") ++ squote ++ ("Brien"))) ≠ 2 ∧
    0 < countQuotes (("30") ++ squote ++ ("0D")) ∧
    countQuotes (verificationQuery (("30") ++ squote ++ ("0D"))) ≠ 2 ∧
    Request.getQuery (verificationQuery ("300D")) ∈ (activateLatestFlow ("MyFlow") envVerifyOk).2 :=
  ⟨by decide,
   ((claim_C10 (("O") ++ squote ++ ("Brien")) (("30") ++ squote ++ ("0D"))).2.2.2.2.2.2.1
     (by decide)).1,
   by decide,
   (claim_C10 (("O") ++ squote ++ ("Brien")) (("30") ++ squote ++ ("0D"))).2.2.2.2.2.2.2.1
     (by decide),
   (claim_C10 (("MyFlow")) (("300D"))).2.2.2.2.2.2.2.2 envVerifyOk ⟨"301A", 7⟩ [] ⟨"300D"⟩ []
     rfl rfl rfl⟩

/-- Helper: the head of `dropWhile p` never satisfies `p`. -/
theorem head?_dropWhile_false (p : Char → Bool) :
    ∀ (l : List Char) (c : Char), (l.dropWhile p).head? = some c → p c = false := by
  intro l
  induction l with
  | nil =>
    intro c h
    simp at h
  | cons a t ih =>
    intro c h
    rw [List.dropWhile_cons] at h
    by_cases hp : p a
    · rw [if_pos hp] at h
      exact ih c h
    · rw [if_neg hp] at h
      simp at h
      rw [← h]
      simpa using hp

/-- Helper: a trimmed character list never ends in whitespace. -/
theorem trimChars_getLast (cs : List Char) (c : Char)
    (h : (trimChars cs).getLast? = some c) : c.isWhitespace = false := by
  rw [trimChars, List.getLast?_reverse] at h
  exact head?_dropWhile_false _ _ _ h

/-- Helper: a trimmed character list never starts with whitespace. -/
theorem trimChars_head (cs : List Char) (c : Char)
    (h : (trimChars cs).head? = some c) : c.isWhitespace = false := by
  have hsuf : ((cs.dropWhile Char.isWhitespace).reverse.dropWhile Char.isWhitespace) <:+
      (cs.dropWhile Char.isWhitespace).reverse := List.dropWhile_suffix _
  have hpre : trimChars cs <+: cs.dropWhile Char.isWhitespace := by
    have h2 := List.reverse_prefix.mpr hsuf
    simpa [trimChars] using h2
  obtain ⟨t, ht⟩ := hpre
  have hAh : (cs.dropWhile Char.isWhitespace).head? = some c := by
    rw [← ht]
    cases htc : trimChars cs with
    | nil =>
      rw [htc] at h
      simp at h
    | cons y ys =>
      rw [htc] at h
      simp at h
      simp [h]
  exact head?_dropWhile_false Char.isWhitespace cs c hAh

/-- Helper: splitting yields one more part than there are separators. -/
theorem length_splitOnP (p : Char → Bool) :
    ∀ l : List Char, (l.splitOnP p).length = l.countP p + 1 := by
  intro l
  induction l with
  | nil => simp [List.splitOnP_nil]
  | cons a t ih =>
    rw [List.splitOnP_cons]
    by_cases hp : p a
    · rw [if_pos hp]
      simp [ih, List.countP_cons, hp]
    · rw [if_neg hp]
      simp [ih, List.countP_cons, hp]

/-- Helper: the formatted flow-name list is never empty, because
`split(';')` always yields at least one field. -/
theorem formatFlowNames_ne_nil (input : String) : formatFlowNames input ≠ [] := by
  rw [formatFlowNames]
  intro hnil
  rw [List.map_eq_nil_iff] at hnil
  exact List.splitOnP_ne_nil _ _ hnil

/-- C5 (counterexample to the claim as stated): the raw input
`"FlowA; ;FlowB"` passes the validate check (it is a non-empty string),
yet the formatted list it hands to the activation loop contains an empty
entry — the middle field trims to the empty string, which is not
filtered out. -/
theorem claim_C5_counterexample :
    validateFlowInput ("FlowA; ;FlowB") = true ∧
    formatFlowNames ("FlowA; ;FlowB") = [("FlowA"), (""), ("FlowB")] ∧
    ("") ∈ formatFlowNames ("FlowA; ;FlowB") := by
  refine ⟨rfl, ?_, ?_⟩ <;> decide

/-- C5 (amended): for every accepted operator input, the list passed to
the activation loop has exactly one entry per semicolon-separated field
(count of semicolons plus one), in input order — entry `i` is the trim of
field `i` — each entry is trimmed of surrounding whitespace, the list is
never empty, and the prompt driver never hands an empty list downstream;
however, individual entries may be empty strings. -/
theorem claim_C5 (input : String) (_h : validateFlowInput input = true) :
    formatFlowNames input ≠ [] ∧
    (formatFlowNames input).length = input.data.count ';' + 1 ∧
    (∀ i : Nat, (formatFlowNames input)[i]? =
      ((input.data.splitOn ';')[i]?).map (fun field => trimString (String.mk field))) ∧
    (∀ s ∈ formatFlowNames input,
      (∀ c, s.data.head? = some c → c.isWhitespace = false) ∧
      (∀ c, s.data.getLast? = some c → c.isWhitespace = false)) ∧
    (∀ (flowInputs : List String) (names : List String),
      promptFlowNames flowInputs = some names → names ≠ []) := by
  refine ⟨formatFlowNames_ne_nil input, ?_, ?_, ?_, ?_⟩
  · rw [formatFlowNames, List.length_map]
    exact length_splitOnP _ input.data
  · intro i
    rw [formatFlowNames]
    exact List.getElem?_map _ _ i
  · intro s hs
    rw [formatFlowNames] at hs
    obtain ⟨field, _, rfl⟩ := List.mem_map.mp hs
    exact ⟨fun c hc => trimChars_head field c hc,
           fun c hc => trimChars_getLast field c hc⟩
  · intro flowInputs
    induction flowInputs with
    | nil =>
      intro names hp
      simp [promptFlowNames] at hp
    | cons a rest ih =>
      intro names hp
      rw [promptFlowNames] at hp
      by_cases hv : validateFlowInput a = true
      · rw [if_pos hv] at hp
        cases hp
        exact formatFlowNames_ne_nil a
      · rw [if_neg hv] at hp
        exact ih names hp

theorem claim_C5_witness :
    validateFlowInput (" Flow A ;FlowB") = true ∧
    (formatFlowNames (" Flow A ;FlowB") ≠ [] ∧
     (formatFlowNames (" Flow A ;FlowB")).length = (" Flow A ;FlowB").data.count ';' + 1 ∧
     (∀ i : Nat, (formatFlowNames (" Flow A ;FlowB"))[i]? =
       (((" Flow A ;FlowB").data.splitOn ';')[i]?).map
         (fun field => trimString (String.mk field))) ∧
     (∀ s ∈ formatFlowNames (" Flow A ;FlowB"),
       (∀ c, s.data.head? = some c → c.isWhitespace = false) ∧
       (∀ c, s.data.getLast? = some c → c.isWhitespace = false)) ∧
     (∀ (flowInputs : List String) (names : List String),
       promptFlowNames flowInputs = some names → names ≠ [])) :=
  ⟨rfl, claim_C5 (" Flow A ;FlowB") rfl⟩
